import Mathlib

/-!
Verification of the conversion-policy core of the `convertav1` CLI
(`src/convert_av1.ts`): bitrate planning, probe-text parsing, encoder
selection, progress reporting, and the run's cleanup / failure paths.

JavaScript numbers are modelled as exact rationals (`ℚ`); `Math.round`
(round half toward +∞) is modelled by `jround`.  Strings are Lean
`String`s and the specific regular expressions used by the source are
translated into explicit character-list scanners.
-/

set_option maxRecDepth 4000

/-- JS `Math.round`: nearest integer, halves toward +∞. -/
def jround (x : ℚ) : ℤ := ⌊x + 1/2⌋

/- ### Character-list utilities

The source manipulates JS strings with `includes`, `toLowerCase`, `trim`,
`match` and `split`.  These are modelled over `String.data` (`List Char`) so
that every definition evaluates inside the kernel. -/

/-- The ASCII white-space characters recognized by JS `\s` and `trim`
(the source never feeds the exotic Unicode space characters to them). -/
def jsWhitespace (c : Char) : Bool :=
  c == ' ' || c == '\t' || c == '\n' || c == '\r' || c == '\x0b' || c == '\x0c'

/-- JS `String.prototype.trim` on the character list. -/
def jsTrim (l : List Char) : List Char :=
  ((l.dropWhile jsWhitespace).reverse.dropWhile jsWhitespace).reverse

/-- `isPrefixChars pat l`: `pat` is a prefix of `l`. -/
def isPrefixChars : List Char → List Char → Bool
  | [], _ => true
  | _ :: _, [] => false
  | p :: ps, c :: cs => p == c && isPrefixChars ps cs

/-- `hasSubstrChars pat l`: `pat` occurs somewhere in `l`
(JS `String.prototype.includes`). -/
def hasSubstrChars (pat : List Char) : List Char → Bool
  | [] => isPrefixChars pat []
  | c :: rest => isPrefixChars pat (c :: rest) || hasSubstrChars pat rest

/-- Number of positions of `l` where `pat` starts.  For the marker
`"Audio:"`, which cannot overlap itself, this equals the number of
non-overlapping matches counted by JS `text.match(/Audio:/g)`. -/
def countMarker (pat : List Char) : List Char → ℕ
  | [] => 0
  | c :: rest => (if isPrefixChars pat (c :: rest) then 1 else 0) + countMarker pat rest

/-- JS `String.prototype.toLowerCase` on the character list
(ASCII case folding, which is all the encoder identifiers need). -/
def lowerChars (l : List Char) : List Char := l.map Char.toLower

/-- Value of an ASCII digit. -/
def digitVal (c : Char) : ℕ := c.toNat - ('0').toNat

/- ### Encoder selection (src/convert_av1.ts, `detectNvenc` lines 155-159 and
`main` lines 326-344)

```
async function detectNvenc(): Promise<boolean> {
    const r = await runCommand(await getFfmpegPath(), ["-hide_banner", "-encoders"]);
    const text = (r.stdout + "\n" + r.stderr).toLowerCase();
    return text.includes("av1_nvenc");
}
...
const usingNvenc = await detectNvenc();
let videoEncoder = "libaom-av1";
...
if (usingNvenc) { ... videoEncoder = "av1_nvenc"; ... }
```

(The second program variant in the same file uses `"libsvtav1"` as the
software encoder name; the selection structure is identical.) -/

/-- `detectNvenc`, applied to the captured stdout/stderr of `ffmpeg -encoders`. -/
def detectNvenc (stdoutText stderrText : String) : Bool :=
  hasSubstrChars ("av1_nvenc").data (lowerChars ((stdoutText ++ ("\n")) ++ stderrText).data)

/-- The `videoEncoder` selected by `main`. -/
def chooseVideoEncoder (stdoutText stderrText : String) : String :=
  if detectNvenc stdoutText stderrText then ("av1_nvenc") else ("libaom-av1")

/-- C4 (as stated in the claim, refuted): there is no third fallback step.
When neither the hardware identifier `av1_nvenc` nor the software identifier
`libaom-av1` occurs in the encoder list, the code still selects the software
AV1 encoder, rather than a near-universal fallback codec or a descriptive
error.  Concrete input: empty encoder list text. -/
theorem c4_counterexample :
    ¬ (∀ stdoutText stderrText : String,
        hasSubstrChars ("av1_nvenc").data
            (lowerChars ((stdoutText ++ ("\n")) ++ stderrText).data) = false →
        hasSubstrChars ("libaom-av1").data
            (lowerChars ((stdoutText ++ ("\n")) ++ stderrText).data) = false →
        chooseVideoEncoder stdoutText stderrText ≠ ("libaom-av1")) := by
  intro h
  exact h ("") ("") (by decide) (by decide) (by decide)

/-- C4 amended: selection is a two-step decision with no availability check on
the software encoder and no error path: the hardware encoder `av1_nvenc` is
chosen exactly when its identifier occurs (case-insensitively) in the encoder
list — even when the software identifier is also present — and otherwise the
software encoder `libaom-av1` is chosen unconditionally. -/
theorem c4_encoder_selection :
    (∀ stdoutText stderrText : String,
        chooseVideoEncoder stdoutText stderrText =
          if detectNvenc stdoutText stderrText then ("av1_nvenc") else ("libaom-av1")) ∧
    (∀ stdoutText stderrText : String,
        detectNvenc stdoutText stderrText = true →
        chooseVideoEncoder stdoutText stderrText = ("av1_nvenc")) ∧
    chooseVideoEncoder ("Encoders: AV1_NVENC libaom-av1") ("") = ("av1_nvenc") ∧
    chooseVideoEncoder ("Encoders: libaom-av1") ("") = ("libaom-av1") := by
  refine ⟨fun _ _ => rfl, fun s t h => ?_, by decide, by decide⟩
  unfold chooseVideoEncoder
  rw [h]
  rfl

/-- Witness for `c4_encoder_selection`: a list containing the hardware
identifier selects the hardware encoder. -/
theorem c4_witness : chooseVideoEncoder ("av1_nvenc") ("") = ("av1_nvenc") :=
  c4_encoder_selection.2.1 ("av1_nvenc") ("") (by decide)

/- ### Interactive path prompt (src/convert_av1.ts, `promptForPath`,
first variant lines 53-59 and second variant lines 449-458)

First variant:  `return answer.trim().replace(/^\"|\"$/g, "");`
Second variant: `return answer.trim().replace(/^\"|\"|$/g, "");`

The first regex removes one leading and one trailing double quote.  The
second one's middle alternative `\"` matches every double quote, so it
removes all of them. -/

/-- Remove one leading double quote if present. -/
def dropLeadQuote : List Char → List Char
  | [] => []
  | c :: rest => if c = '"' then rest else c :: rest

/-- Remove one trailing double quote if present. -/
def dropTrailQuote (l : List Char) : List Char :=
  (dropLeadQuote l.reverse).reverse

/-- `promptForPath`'s result transformation, first variant (lines 53-59). -/
def promptPathClean1 (answer : String) : String :=
  String.mk (dropTrailQuote (dropLeadQuote (jsTrim answer.data)))

/-- `promptForPath`'s result transformation, second variant (lines 449-458):
the regex `/^\"|\"|$/g` deletes every double quote of the trimmed line. -/
def promptPathClean2 (answer : String) : String :=
  String.mk ((jsTrim answer.data).filter (fun c => c != '"'))

/-- C9 (as stated in the claim, refuted for the second variant): on the
entered line `a"b` the second variant returns `ab` — the interior double
quote is NOT preserved (the first variant does preserve it). -/
theorem c9_counterexample :
    promptPathClean2 ("a\"b") = ("ab") ∧
    promptPathClean1 ("a\"b") = ("a\"b") ∧
    promptPathClean2 ("a\"b") ≠ promptPathClean1 ("a\"b") := by
  decide

theorem dropLeadQuote_eq (l : List Char) :
    ∃ pre, (pre = [] ∨ pre = ['"']) ∧ pre ++ dropLeadQuote l = l := by
  cases l with
  | nil => exact ⟨[], Or.inl rfl, rfl⟩
  | cons c rest =>
    by_cases h : c = '"'
    · subst h
      exact ⟨['"'], Or.inr rfl, rfl⟩
    · refine ⟨[], Or.inl rfl, ?_⟩
      show dropLeadQuote (c :: rest) = c :: rest
      simp [dropLeadQuote, h]

theorem dropTrailQuote_eq (l : List Char) :
    ∃ suf, (suf = [] ∨ suf = ['"']) ∧ dropTrailQuote l ++ suf = l := by
  obtain ⟨pre, hpre, heq⟩ := dropLeadQuote_eq l.reverse
  refine ⟨pre.reverse, ?_, ?_⟩
  · rcases hpre with h | h <;> subst h
    · exact Or.inl rfl
    · exact Or.inr rfl
  · unfold dropTrailQuote
    have := congrArg List.reverse heq
    simpa using this

/-- C9 amended: the first prompt variant removes surrounding whitespace and at
most one leading and one trailing double quote, preserving all interior
quotes; the second prompt variant removes every double quote character of the
trimmed line. -/
theorem c9_prompt_characterization (answer : String) :
    (∃ pre suf, (pre = [] ∨ pre = ['"']) ∧ (suf = [] ∨ suf = ['"']) ∧
        pre ++ ((promptPathClean1 answer).data ++ suf) = jsTrim answer.data) ∧
    (promptPathClean2 answer).data = (jsTrim answer.data).filter (fun c => c != '"') := by
  constructor
  · obtain ⟨suf, hsuf, hseq⟩ := dropTrailQuote_eq (dropLeadQuote (jsTrim answer.data))
    obtain ⟨pre, hpre, hpeq⟩ := dropLeadQuote_eq (jsTrim answer.data)
    refine ⟨pre, suf, hpre, hsuf, ?_⟩
    show pre ++ (dropTrailQuote (dropLeadQuote (jsTrim answer.data)) ++ suf) = _
    rw [hseq, hpeq]
  · rfl

/- ### Bitrate Planner (src/convert_av1.ts, main, lines 300-314)

```
let origTotalBitrateKbps = 0;
if (totalDurationSeconds > 0) {
    origTotalBitrateKbps = Math.round((inputSizeBytes * 8) / totalDurationSeconds / 1000);
}
let targetVideoBitrateKbps = 0;
if (origTotalBitrateKbps > 0) {
    const targetTotalBitrateKbps = Math.round(origTotalBitrateKbps * 0.5);
    targetVideoBitrateKbps = targetTotalBitrateKbps - audioTotalBitrateKbps;
    if (targetVideoBitrateKbps < 300) targetVideoBitrateKbps = 300;
}
```
-/

/-- `origTotalBitrateKbps` as computed by `main`. -/
def origTotalKbps (inputSizeBytes durationSeconds : ℚ) : ℤ :=
  if durationSeconds > 0 then jround (inputSizeBytes * 8 / durationSeconds / 1000) else 0

/-- `targetVideoBitrateKbps` as computed by `main`
(`audioKbps` is the integer total from `getAudioBitrateInfo`). -/
def planTargetVideoKbps (inputSizeBytes durationSeconds : ℚ) (audioKbps : ℤ) : ℤ :=
  let orig := origTotalKbps inputSizeBytes durationSeconds
  if orig > 0 then
    let targetTotal := jround ((orig : ℚ) * (1/2))
    let targetVideo := targetTotal - audioKbps
    if targetVideo < 300 then 300 else targetVideo
  else 0

/-- C1 (as stated in the claim, refuted): the planner does NOT return at least
300 for every positive size and duration; when the rounded original total
bitrate is 0 (tiny size / long duration) the planner returns 0.
Concrete input: 1 byte over 1000 seconds, audio 0 kbps. -/
theorem c1_counterexample :
    ¬ (∀ (inputSizeBytes durationSeconds : ℚ) (audioKbps : ℤ),
        0 < inputSizeBytes → 0 < durationSeconds → 0 ≤ audioKbps →
        300 ≤ planTargetVideoKbps inputSizeBytes durationSeconds audioKbps) := by
  intro h
  have h1 := h 1 1000 0 (by norm_num) (by norm_num) (by norm_num)
  have h2 : planTargetVideoKbps 1 1000 0 = 0 := by
    unfold planTargetVideoKbps origTotalKbps jround
    norm_num
  rw [h2] at h1
  norm_num at h1

/-- C1 amended: if the duration is nonpositive, or the rounded original total
bitrate is nonpositive (possible even for positive size and duration), the
planner returns 0; otherwise it returns
`max 300 (round(orig * 0.5) - audioKbps)`, which is at least 300.
The result is never negative. -/
theorem c1_plan_characterization (inputSizeBytes durationSeconds : ℚ) (audioKbps : ℤ) :
    (durationSeconds ≤ 0 → planTargetVideoKbps inputSizeBytes durationSeconds audioKbps = 0) ∧
    (origTotalKbps inputSizeBytes durationSeconds ≤ 0 →
      planTargetVideoKbps inputSizeBytes durationSeconds audioKbps = 0) ∧
    (0 < origTotalKbps inputSizeBytes durationSeconds →
      planTargetVideoKbps inputSizeBytes durationSeconds audioKbps =
        max 300 (jround ((origTotalKbps inputSizeBytes durationSeconds : ℚ) * (1/2)) - audioKbps) ∧
      300 ≤ planTargetVideoKbps inputSizeBytes durationSeconds audioKbps) ∧
    0 ≤ planTargetVideoKbps inputSizeBytes durationSeconds audioKbps := by
  refine ⟨?_, ?_, ?_, ?_⟩
  · intro hd
    unfold planTargetVideoKbps origTotalKbps
    have : ¬ durationSeconds > 0 := not_lt.mpr hd
    simp only [this, if_false]
    norm_num
  · intro horig
    unfold planTargetVideoKbps
    have : ¬ origTotalKbps inputSizeBytes durationSeconds > 0 := not_lt.mpr horig
    simp only [this, if_false]
  · intro horig
    unfold planTargetVideoKbps
    simp only [horig, if_true]
    constructor
    · split <;> omega
    · split <;> omega
  · unfold planTargetVideoKbps
    dsimp only
    split
    · split <;> omega
    · omega

/-- Witness for `c1_plan_characterization`: an 8 MB, 1 second file with
192 kbps of audio gets `max 300 (32000 - 192) = 31808` kbps, at least 300. -/
theorem c1_plan_witness :
    planTargetVideoKbps 8000000 1 192 =
        max 300 (jround ((origTotalKbps 8000000 1 : ℚ) * (1/2)) - 192) ∧
    300 ≤ planTargetVideoKbps 8000000 1 192 :=
  (c1_plan_characterization 8000000 1 192).2.2.1 (by
    unfold origTotalKbps jround
    norm_num)

/- ### Audio bitrate estimation (src/convert_av1.ts, `getAudioBitrateInfo`,
lines 119-153)

```
if (r.code === 0 && r.stdout) {
    const json = JSON.parse(r.stdout) ...
    if (json.streams && json.streams.length) {
        let kbps = 0;
        let cnt = 0;
        for (const s of json.streams) {
            cnt += 1;
            if (s.bit_rate != null) {
                const br = ...;
                if (Number.isFinite(br)) kbps += Math.round(br / 1000);
            }
        }
        if (kbps === 0 && cnt > 0) { kbps = 192 * cnt; }
        return { totalKbps: kbps, streamCount: cnt };
    }
}
// Fallbacks
const audioCount = (probeText.match(/Audio:/g) || []).length;
const totalKbps = audioCount > 0 ? 192 * audioCount : 0;
return { totalKbps, streamCount: audioCount };
```

The structured ffprobe query is modelled by its observable result: `none`
when the subprocess fails, exits non-zero, prints nothing, or prints JSON
without a non-empty `streams` array; `some streams` otherwise, each stream
carrying its optional numeric `bit_rate` in bits per second. -/

/-- `getAudioBitrateInfo`, returning `(totalKbps, streamCount)`. -/
def getAudioBitrateInfo (structured : Option (List (Option ℚ)))
    (probeText : String) : ℤ × ℕ :=
  let audioCount := countMarker ("Audio:").data probeText.data
  let fallback : ℤ × ℕ := (if audioCount > 0 then 192 * (audioCount : ℤ) else 0, audioCount)
  match structured with
  | some streams =>
    if streams.length ≠ 0 then
      let cnt := streams.length
      let kbps : ℤ := (streams.map (fun s => match s with
        | some br => jround (br / 1000)
        | none => 0)).sum
      let kbps := if kbps = 0 ∧ cnt > 0 then 192 * (cnt : ℤ) else kbps
      (kbps, cnt)
    else fallback
  | none => fallback

/-- C5 (as stated in the claim, refuted): a stream missing its bitrate does
NOT contribute 192 kbps when another stream reports one.  With one stream
reporting 128 kbps and one unreported stream, the total is 128 kbps,
not 128 + 192. -/
theorem c5_counterexample :
    getAudioBitrateInfo (some [some 128000, none]) ("") = (128, 2) ∧
    getAudioBitrateInfo (some [some 128000, none]) ("") ≠ (128 + 192, 2) := by
  have h : getAudioBitrateInfo (some [some 128000, none]) ("") = (128, 2) := by
    unfold getAudioBitrateInfo jround
    norm_num
  refine ⟨h, ?_⟩
  rw [h]
  intro hcontra
  have := congrArg Prod.fst hcontra
  norm_num at this

/-- C5 amended: streams that report a bitrate contribute `round(bps/1000)`
kbps and unreported streams contribute 0; only when the reported sum is 0
(in particular when no stream reports anything) is the total replaced by
192 kbps per stream.  A single unreported stream hence yields `(192, 1)`,
and a failed structured query falls back to 192 kbps per occurrence of the
`"Audio:"` marker in the raw probe text. -/
theorem c5_audio_characterization :
    (∀ t : String, getAudioBitrateInfo (some [none]) t = (192, 1)) ∧
    (∀ (br : ℚ) (t : String), jround (br / 1000) ≠ 0 →
        getAudioBitrateInfo (some [some br, none]) t = (jround (br / 1000), 2)) ∧
    (∀ (t : String) (n : ℕ), 0 < n →
        getAudioBitrateInfo (some (List.replicate n none)) t = (192 * (n : ℤ), n)) ∧
    (∀ t : String, getAudioBitrateInfo none t =
        (if 0 < countMarker ("Audio:").data t.data
          then 192 * (countMarker ("Audio:").data t.data : ℤ) else 0,
         countMarker ("Audio:").data t.data)) := by
  refine ⟨fun t => ?_, fun br t h => ?_, fun t n hn => ?_, fun t => rfl⟩
  · unfold getAudioBitrateInfo jround
    norm_num
  · unfold getAudioBitrateInfo
    simp only [List.length_cons, List.length_nil, List.map_cons, List.map_nil, List.sum_cons,
      List.sum_nil]
    norm_num [h]
  · unfold getAudioBitrateInfo
    have hlen : (List.replicate n (none : Option ℚ)).length = n := List.length_replicate n none
    have hmap : (List.replicate n (none : Option ℚ)).map (fun s => match s with
        | some br => jround (br / 1000)
        | none => (0 : ℤ)) = List.replicate n (0 : ℤ) := List.map_replicate
    simp only [hlen, hmap]
    rw [if_pos (by omega)]
    simp [List.sum_replicate, hn]

/-- Witness for `c5_audio_characterization`: one stream at 128000 bps plus
one unreported stream totals `round(128000/1000) = 128` kbps over 2 streams. -/
theorem c5_witness :
    getAudioBitrateInfo (some [some 128000, none]) ("x") = (jround (128000 / 1000), 2) :=
  c5_audio_characterization.2.1 128000 ("x") (by
    unfold jround
    norm_num)

/- ### Duration parsing (src/convert_av1.ts, `parseDurationSeconds`,
lines 75-87)

```
const re = /(?:Duration|Durée):\s+(\d{2}):(\d{2}):(\d{2})(?:\.(\d{2}))?/;
const m = probeText.match(re);
if (!m) return 0;
const hh = Number(m[1]); const mm = Number(m[2]); const ss = Number(m[3]);
const cs = m[4] ? Number(m[4]) : 0;
let total = hh * 3600 + mm * 60 + ss;
total += cs / 100;
return total;
```

The regex is translated into an explicit scanner over the character list:
`matchDurationAt` attempts the pattern at one position, `scanDuration` finds
the leftmost position where it succeeds (exactly how the JS engine scans).
Because `\s` and `\d` are disjoint character classes, the engine's greedy
`\s+` with backtracking is equivalent to taking the maximal white-space run. -/

/-- Match a literal character sequence, returning the rest of the input. -/
def matchLiteral : List Char → List Char → Option (List Char)
  | [], rest => some rest
  | _ :: _, [] => none
  | p :: ps, c :: cs => if p == c then matchLiteral ps cs else none

/-- Match `\s+` (one or more white-space characters, maximal run). -/
def matchSpaces1 : List Char → Option (List Char)
  | [] => none
  | c :: rest => if jsWhitespace c then some (rest.dropWhile jsWhitespace) else none

/-- Match `(\d{2})`: exactly two decimal digits, returning their value. -/
def parse2Digits : List Char → Option (ℕ × List Char)
  | c1 :: c2 :: rest =>
    if c1.isDigit && c2.isDigit then some (10 * digitVal c1 + digitVal c2, rest) else none
  | _ => none

/-- Attempt `(?:Duration|Durée):\s+(\d{2}):(\d{2}):(\d{2})(?:\.(\d{2}))?` at
the head of the input, returning `(hh, mm, ss, cs)` (cs defaults to 0 when the
optional centiseconds group is absent). -/
def matchDurationAt (l : List Char) : Option (ℕ × ℕ × ℕ × ℕ) :=
  match match matchLiteral ("Duration:").data l with
        | some r => some r
        | none => matchLiteral ("Durée:").data l with
  | none => none
  | some r1 =>
    match matchSpaces1 r1 with
    | none => none
    | some r2 =>
      match parse2Digits r2 with
      | none => none
      | some (hh, r3) =>
        match r3 with
        | ':' :: r4 =>
          match parse2Digits r4 with
          | none => none
          | some (mm, r5) =>
            match r5 with
            | ':' :: r6 =>
              match parse2Digits r6 with
              | none => none
              | some (ss, r7) =>
                let cs := match r7 with
                  | '.' :: r8 =>
                    match parse2Digits r8 with
                    | some (v, _) => v
                    | none => 0
                  | _ => 0
                some (hh, mm, ss, cs)
            | _ => none
        | _ => none

/-- Leftmost match of the duration pattern in the text. -/
def scanDuration : List Char → Option (ℕ × ℕ × ℕ × ℕ)
  | [] => none
  | c :: rest =>
    match matchDurationAt (c :: rest) with
    | some v => some v
    | none => scanDuration rest

/-- `parseDurationSeconds`: seconds represented by the first duration match,
or 0 when the text has none. -/
def parseDurationSeconds (probeText : String) : ℚ :=
  match scanDuration probeText.data with
  | none => 0
  | some (hh, mm, ss, cs) => (hh : ℚ) * 3600 + (mm : ℚ) * 60 + (ss : ℚ) + (cs : ℚ) / 100

/-- C6 confirmed: a text whose first duration match is `hh:mm:ss.cc` parses to
`hh*3600 + mm*60 + ss + cs/100` seconds; the spec's examples evaluate to
`3723.45` and `0` exactly, and a text without a match parses to 0. -/
theorem c6_parseDuration :
    parseDurationSeconds ("... Duration: 01:02:03.45 ...") = (3723.45 : ℚ) ∧
    parseDurationSeconds ("no duration info") = 0 ∧
    parseDurationSeconds ("Duration: 01:02:03") = 3723 ∧
    (∀ s : String, scanDuration s.data = none → parseDurationSeconds s = 0) ∧
    (∀ (s : String) (hh mm ss cs : ℕ), scanDuration s.data = some (hh, mm, ss, cs) →
        parseDurationSeconds s = (hh : ℚ) * 3600 + (mm : ℚ) * 60 + (ss : ℚ) + (cs : ℚ) / 100) := by
  refine ⟨?_, ?_, ?_, fun s h => ?_, fun s hh mm ss cs h => ?_⟩
  · have hscan : scanDuration ("... Duration: 01:02:03.45 ...").data = some (1, 2, 3, 45) := by
      decide
    unfold parseDurationSeconds
    rw [hscan]
    norm_num
  · have hscan : scanDuration ("no duration info").data = none := by decide
    unfold parseDurationSeconds
    rw [hscan]
  · have hscan : scanDuration ("Duration: 01:02:03").data = some (1, 2, 3, 0) := by decide
    unfold parseDurationSeconds
    rw [hscan]
    norm_num
  · unfold parseDurationSeconds
    rw [h]
  · unfold parseDurationSeconds
    rw [h]

/-- Witness for `c6_parseDuration`: a text with no match parses to 0. -/
theorem c6_witness : parseDurationSeconds ("abc") = 0 :=
  c6_parseDuration.2.2.2.1 ("abc") (by decide)

/- ### Progress parsing (src/convert_av1.ts, `encodeWithProgress`,
lines 166-191)

```
let lastPercent = -1;
const onProgressLine = (line) => {
    if (totalDurationSeconds > 0) {
        const m = line.match(/^out_time_ms=(\d+)/);
        if (m) {
            const ms = Number(m[1]);
            const seconds = ms / 1_000_000;
            const percent = Math.max(0, Math.min(100, (seconds / totalDurationSeconds) * 100));
            if (percent - lastPercent >= 0.5 || percent === 100) {
                lastPercent = percent;
                const elapsedSec = (Date.now() - start) / 1000;
                const remainingPercent = Math.max(0.001, 100 - percent);
                const etaSec = elapsedSec * (remainingPercent / Math.max(0.001, percent));
                ... write status ...
            }
        }
    }
};
```

The mutable `lastPercent` plus the sequence of written status percents form
the state `ProgState`; `stepLine` is `onProgressLine`. -/

/-- Mutable state of the progress reporter: the last displayed percent
(initially -1) and the percents displayed so far, in order. -/
structure ProgState where
  lastPercent : ℚ
  displayed : List ℚ
deriving Repr

/-- Initial progress state (`lastPercent = -1`, nothing displayed). -/
def initProgState : ProgState := ⟨-1, []⟩

/-- Parse `/^out_time_ms=(\d+)/`: the literal key at the start of the line
followed by at least one digit (maximal digit run, anything after ignored). -/
def parseOutTimeMs (line : String) : Option ℕ :=
  match matchLiteral ("out_time_ms=").data line.data with
  | none => none
  | some rest =>
    let digits := rest.takeWhile Char.isDigit
    if digits = [] then none
    else some (digits.foldl (fun n c => 10 * n + digitVal c) 0)

/-- Percent complete for an `out_time_ms` value:
`max 0 (min 100 ((ms / 1e6) / total * 100))`. -/
def percentOf (totalDurationSeconds : ℚ) (ms : ℕ) : ℚ :=
  max 0 (min 100 ((ms : ℚ) / 1000000 / totalDurationSeconds * 100))

/-- Displayed ETA: `elapsedSec * (max 0.001 (100 - percent) / max 0.001 percent)`. -/
def etaOf (elapsedSec percent : ℚ) : ℚ :=
  elapsedSec * (max (1/1000) (100 - percent) / max (1/1000) percent)

/-- `onProgressLine` as a state transition. -/
def stepLine (totalDurationSeconds : ℚ) (st : ProgState) (line : String) : ProgState :=
  if totalDurationSeconds > 0 then
    match parseOutTimeMs line with
    | some ms =>
      let percent := percentOf totalDurationSeconds ms
      if 1/2 ≤ percent - st.lastPercent ∨ percent = 100 then
        ⟨percent, st.displayed ++ [percent]⟩
      else st
    | none => st
  else st

/-- All progress lines of one run, processed in order. -/
def runProgress (totalDurationSeconds : ℚ) (lines : List String) : ProgState :=
  lines.foldl (stepLine totalDurationSeconds) initProgState

theorem percentOf_nonneg (total : ℚ) (ms : ℕ) : 0 ≤ percentOf total ms :=
  le_max_left 0 _

theorem percentOf_le_100 (total : ℚ) (ms : ℕ) : percentOf total ms ≤ 100 := by
  unfold percentOf
  rw [max_le_iff]
  exact ⟨by norm_num, min_le_left 100 _⟩

/-- C7 confirmed: while the total duration is positive, a line
`out_time_ms=<n>` yields percent `max 0 (min 100 (n/1e6/total*100))` — the
spec's example line against a 120-second duration gives exactly 50 — the
status is (re)displayed exactly when that percent advanced by at least 0.5
over the last displayed value or equals 100, and away from the 0.001 clamps
the displayed ETA is `elapsedWallClock * ((100 - percent) / percent)`. -/
theorem c7_progress :
    percentOf 120 60000000 = 50 ∧
    parseOutTimeMs ("out_time_ms=60000000") = some 60000000 ∧
    (∀ (total : ℚ) (ms : ℕ), 0 ≤ percentOf total ms ∧ percentOf total ms ≤ 100) ∧
    (∀ (total : ℚ) (st : ProgState) (line : String) (ms : ℕ),
        0 < total → parseOutTimeMs line = some ms →
        ((stepLine total st line).displayed = st.displayed ++ [percentOf total ms] ↔
          (1/2 ≤ percentOf total ms - st.lastPercent ∨ percentOf total ms = 100)) ∧
        ((stepLine total st line).displayed = st.displayed ++ [percentOf total ms] ∨
          stepLine total st line = st)) ∧
    (∀ (elapsedSec percent : ℚ), 1/1000 ≤ percent → 1/1000 ≤ 100 - percent →
        etaOf elapsedSec percent = elapsedSec * ((100 - percent) / percent)) := by
  refine ⟨?_, by decide, fun total ms => ⟨percentOf_nonneg total ms, percentOf_le_100 total ms⟩,
    fun total st line ms htotal hline => ?_, fun elapsedSec percent h1 h2 => ?_⟩
  · unfold percentOf
    norm_num
  · unfold stepLine
    rw [if_pos htotal, hline]
    dsimp only
    constructor
    · constructor
      · intro hdisp
        by_contra hcond
        rw [if_neg hcond] at hdisp
        have := congrArg List.length hdisp
        simp at this
      · intro hcond
        rw [if_pos hcond]
    · split
      · exact Or.inl rfl
      · exact Or.inr rfl
  · unfold etaOf
    rw [max_eq_right h1, max_eq_right h2]

/-- Witness for `c7_progress`: the spec's example line displays 50% from the
initial state, and at 50% with 10 s elapsed the ETA is 10 s. -/
theorem c7_witness :
    (stepLine 120 initProgState ("out_time_ms=60000000")).displayed =
        initProgState.displayed ++ [percentOf 120 60000000] ∧
    etaOf 10 50 = 10 * ((100 - 50) / 50) := by
  constructor
  · refine ((c7_progress.2.2.2.1 120 initProgState ("out_time_ms=60000000") 60000000
      (by norm_num) (by decide)).1).mpr ?_
    rw [c7_progress.1]
    norm_num [initProgState]
  · exact c7_progress.2.2.2.2 10 50 (by norm_num) (by norm_num)

/- ### Monotonicity of the displayed progress (C10) -/

/-- Invariant maintained by `stepLine`: displayed percents are non-decreasing
and within [0, 100]; `lastPercent` never exceeds 100 and, once something has
been displayed, equals the last displayed value. -/
def progInvariant (st : ProgState) : Prop :=
  st.displayed.Chain' (· ≤ ·) ∧
  (∀ p ∈ st.displayed, 0 ≤ p ∧ p ≤ 100) ∧
  st.lastPercent ≤ 100 ∧
  (st.displayed = [] ∨ st.displayed.getLast? = some st.lastPercent)

theorem stepLine_invariant (total : ℚ) (st : ProgState) (line : String)
    (h : progInvariant st) : progInvariant (stepLine total st line) := by
  unfold stepLine
  split
  · cases hp : parseOutTimeMs line with
    | none => exact h
    | some ms =>
      dsimp only
      split
      · rename_i hcond
        obtain ⟨hchain, hbounds, hlastle, hlink⟩ := h
        have hple : percentOf total ms ≤ 100 := percentOf_le_100 total ms
        have hpge : 0 ≤ percentOf total ms := percentOf_nonneg total ms
        have hlastp : ∀ x, st.displayed.getLast? = some x → x ≤ percentOf total ms := by
          intro x hx
        -- the last displayed value is `lastPercent` …
          rcases hlink with hnil | hlast
          · rw [hnil] at hx
            simp at hx
          · rw [hlast] at hx
            injection hx with hx
            subst hx
        -- … and the display condition forces it not to exceed the new percent
            rcases hcond with hc | hc
            · linarith
            · rw [hc]
              exact hlastle
        refine ⟨?_, ?_, hple, Or.inr ?_⟩
        · rw [List.chain'_append]
          refine ⟨hchain, List.chain'_singleton _, ?_⟩
          intro x hx y hy
          simp only [List.head?_cons, Option.mem_def, Option.some.injEq] at hy
          subst hy
          exact hlastp x hx
        · intro p hp
          rcases List.mem_append.mp hp with hin | hin
          · exact hbounds p hin
          · have : p = percentOf total ms := by simpa using hin
            subst this
            exact ⟨hpge, hple⟩
        · simp
      · exact h
  · exact h

theorem foldl_stepLine_invariant (total : ℚ) (lines : List String) (st : ProgState)
    (h : progInvariant st) : progInvariant (lines.foldl (stepLine total) st) := by
  induction lines generalizing st with
  | nil => exact h
  | cons l ls ih => exact ih _ (stepLine_invariant total st l h)

theorem initProgState_invariant : progInvariant initProgState := by
  refine ⟨List.chain'_nil, ?_, by norm_num [initProgState], Or.inl rfl⟩
  intro p hp
  simp [initProgState] at hp

/-- C10 confirmed: over any sequence of progress lines the displayed
percentages are non-decreasing and all lie in [0, 100]; a later line
reporting a smaller `out_time` never moves the display backwards. -/
theorem c10_display_monotone (total : ℚ) (lines : List String) :
    (runProgress total lines).displayed.Chain' (· ≤ ·) ∧
    (∀ p ∈ (runProgress total lines).displayed, 0 ≤ p ∧ p ≤ 100) := by
  have h := foldl_stepLine_invariant total lines initProgState initProgState_invariant
  exact ⟨h.1, h.2.1⟩

/-- Witness for `c10_display_monotone`: a run whose second line reports a
smaller `out_time` (25% after 50%) displays only `[50]`, which is trivially
non-decreasing, and its member 50 is within bounds. -/
theorem c10_witness :
    (runProgress 120 [("out_time_ms=60000000"), ("out_time_ms=30000000")]).displayed.Chain'
        (· ≤ ·) ∧
    (0 ≤ (50 : ℚ) ∧ (50 : ℚ) ≤ 100) := by
  have hp1 : parseOutTimeMs ("out_time_ms=60000000") = some 60000000 := by decide
  have hp2 : parseOutTimeMs ("out_time_ms=30000000") = some 30000000 := by decide
  have hpc1 : percentOf 120 60000000 = 50 := by
    unfold percentOf
    norm_num
  have hpc2 : percentOf 120 30000000 = 25 := by
    unfold percentOf
    norm_num
  have h1 : stepLine 120 initProgState ("out_time_ms=60000000") = ⟨50, [50]⟩ := by
    unfold stepLine
    rw [if_pos (by norm_num), hp1]
    dsimp only
    rw [hpc1, if_pos (by norm_num [initProgState])]
    rfl
  have h2 : stepLine 120 (⟨50, [50]⟩ : ProgState) ("out_time_ms=30000000") = ⟨50, [50]⟩ := by
    unfold stepLine
    rw [if_pos (by norm_num), hp2]
    dsimp only
    rw [hpc2, if_neg (by norm_num)]
  have hrun : (runProgress 120 [("out_time_ms=60000000"), ("out_time_ms=30000000")]).displayed
      = [50] := by
    unfold runProgress
    rw [List.foldl_cons, h1, List.foldl_cons, h2, List.foldl_nil]
  refine ⟨(c10_display_monotone 120 [("out_time_ms=60000000"), ("out_time_ms=30000000")]).1,
    (c10_display_monotone 120 [("out_time_ms=60000000"), ("out_time_ms=30000000")]).2 50 ?_⟩
  rw [hrun]
  exact List.mem_singleton.mpr rfl

/- ### Attached-picture detection (src/convert_av1.ts,
`findAttachedPicMapIndex`, lines 89-100)

```
const lines = probeText.split(/\r?\n/);
for (const line of lines) {
    if (line.includes("attached pic")) {
        const m = line.match(/Stream\s+#(\d+:\d+)/);
        if (m) return m[1];
    }
}
return null;
```

Note the regex demands the `Stream` keyword and white space in front of the
`#d:d` specifier, and an annotated line without such a match is skipped,
not returned. -/

/-- JS `split(/\r?\n/)`: split into lines at `\n`, also consuming a `\r`
immediately before it (a lone `\r` is not a separator). -/
def splitLinesJS : List Char → List (List Char)
  | [] => [[]]
  | '\r' :: '\n' :: rest => [] :: splitLinesJS rest
  | '\n' :: rest => [] :: splitLinesJS rest
  | c :: rest =>
    match splitLinesJS rest with
    | [] => [[c]]
    | l :: ls => (c :: l) :: ls

/-- Attempt `/Stream\s+#(\d+:\d+)/` at the head of the input, returning the
captured `d+:d+` group.  The digit runs are maximal, which agrees with the
engine's greedy `\d+` because a shorter run would put a digit where `:` or a
non-digit boundary is required. -/
def matchStreamSpecAt (l : List Char) : Option (List Char) :=
  match matchLiteral ("Stream").data l with
  | none => none
  | some r1 =>
    match matchSpaces1 r1 with
    | none => none
    | some r2 =>
      match r2 with
      | '#' :: r3 =>
        let d1 := r3.takeWhile Char.isDigit
        let r4 := r3.dropWhile Char.isDigit
        if d1 = [] then none
        else
          match r4 with
          | ':' :: r5 =>
            let d2 := r5.takeWhile Char.isDigit
            if d2 = [] then none else some (d1 ++ ':' :: d2)
          | _ => none
      | _ => none

/-- Leftmost match of the stream-specifier pattern in a line. -/
def scanStreamSpec : List Char → Option (List Char)
  | [] => none
  | c :: rest =>
    match matchStreamSpecAt (c :: rest) with
    | some v => some v
    | none => scanStreamSpec rest

/-- Loop body of `findAttachedPicMapIndex` over the split lines. -/
def findAttachedPicAux : List (List Char) → Option String
  | [] => none
  | line :: rest =>
    if hasSubstrChars ("attached pic").data line then
      match scanStreamSpec line with
      | some spec => some (String.mk spec)
      | none => findAttachedPicAux rest
    else findAttachedPicAux rest

/-- `findAttachedPicMapIndex`. -/
def findAttachedPicMapIndex (probeText : String) : Option String :=
  findAttachedPicAux (splitLinesJS probeText.data)

/-- C8 (as stated in the claim, refuted): a line containing the annotation
`attached pic` together with a bare specifier `#0:2` — but without the
`Stream` keyword the regex requires in front of it — returns nothing, where
the claim promises `"0:2"`. -/
theorem c8_counterexample :
    hasSubstrChars ("attached pic").data ("a attached pic b #0:2").data = true ∧
    hasSubstrChars ("#0:2").data ("a attached pic b #0:2").data = true ∧
    findAttachedPicMapIndex ("a attached pic b #0:2") = none ∧
    findAttachedPicMapIndex ("a attached pic b #0:2") ≠ some ("0:2") := by
  refine ⟨by decide, by decide, by decide, ?_⟩
  intro h
  rw [show findAttachedPicMapIndex ("a attached pic b #0:2") = none from by decide] at h
  exact Option.noConfusion h

theorem findAttachedPicAux_none (lines : List (List Char))
    (h : ∀ line ∈ lines, hasSubstrChars ("attached pic").data line = false) :
    findAttachedPicAux lines = none := by
  induction lines with
  | nil => rfl
  | cons line rest ih =>
    unfold findAttachedPicAux
    rw [h line (List.mem_cons_self line rest)]
    exact ih fun l hl => h l (List.mem_cons_of_mem line hl)

/-- C8 amended: scanning line by line, the function returns — without the
leading `#` — the first group matched by `Stream\s+#(\d+:\d+)` on the first
annotated line where that full pattern matches; annotated lines lacking the
`Stream`-prefixed specifier are skipped, and if no line contains the
annotation the result is nothing. -/
theorem c8_findAttachedPic :
    findAttachedPicMapIndex ("  Stream #0:2: Video: mjpeg (attached pic)") = some ("0:2") ∧
    findAttachedPicMapIndex ("attached pic without specifier\n  Stream #0:3(attached pic)") =
        some ("0:3") ∧
    (∀ s : String,
        (∀ line ∈ splitLinesJS s.data, hasSubstrChars ("attached pic").data line = false) →
        findAttachedPicMapIndex s = none) := by
  refine ⟨by decide, by decide, fun s h => findAttachedPicAux_none _ h⟩

/-- Witness for `c8_findAttachedPic`: probe text with no annotated line. -/
theorem c8_witness : findAttachedPicMapIndex ("hello world") = none :=
  c8_findAttachedPic.2.2 ("hello world") (by decide)

/- ### Run lifecycle: thumbnail cleanup (src/convert_av1.ts, `main`,
lines 268-391)

The control flow of `main` relevant to the temporary thumbnail is:

```
try {
    ...
    await extractOrGenerateThumbnail(inputPath, tempThumb, probeText);   // may throw
    try {
        const buf = await readFile(tempThumb);
        if (!buf || buf.length === 0) throw ...;
    } catch {
        throw new Error("Thumbnail file is missing or empty. Cannot proceed.");
    }
    ...
    try {
        await encodeWithProgress(ffArgs, totalDurationSeconds);
        ...
    } catch (err) { ...; process.exitCode = 1; }
    finally { try { await rm(tempThumb, { force: true }); } catch { } }
} catch (err) { ...; process.exitCode = 1; }
```

The `finally` that deletes `tempThumb` belongs to the inner try around the
encode only.  A throw raised before that inner try is entered — in
particular the thumbnail verification throw — propagates directly to the
outer catch, past the deletion.  The step outcomes that decide this control
flow are collected in an oracle and `main`'s flow is replayed over it. -/

/-- Outcome of `extractOrGenerateThumbnail`: a file of `sizeBytes` bytes was
written, or the step threw (with `fileLeftOnDisk` recording whether one of
the attempted ffmpeg invocations still left a file behind). -/
inductive ThumbCreation where
  | created (sizeBytes : ℕ) : ThumbCreation
  | failed (fileLeftOnDisk : Bool) : ThumbCreation

/-- Non-deterministic outcomes of the external steps of one run. -/
structure RunOracle where
  thumb : ThumbCreation
  encodeSucceeds : Bool

/-- Observable final state of one run: whether the temporary thumbnail path
still exists on disk, and whether the process exits with code 0. -/
structure RunOutcome where
  thumbOnDisk : Bool
  exitOk : Bool

/-- Replay of `main`'s exit paths over the oracle. -/
def runConversion (o : RunOracle) : RunOutcome :=
  match o.thumb with
  | ThumbCreation.failed present =>
    -- throw inside `extractOrGenerateThumbnail` → outer catch; no deletion runs
    ⟨present, false⟩
  | ThumbCreation.created size =>
    if size = 0 then
      -- verification throw before the encode try → outer catch; no deletion runs
      ⟨true, false⟩
    else
      -- encode phase entered: its `finally` removes the thumbnail on both paths
      ⟨false, o.encodeSucceeds⟩

/-- C2 (as stated in the claim, refuted): a run that fails thumbnail
verification — the generated file exists but is empty — reaches the outer
catch before the deletion `finally` is installed, so the temporary thumbnail
is still on disk after the run. -/
theorem c2_counterexample :
    (runConversion ⟨ThumbCreation.created 0, true⟩).thumbOnDisk = true ∧
    ¬ (∀ o : RunOracle, (runConversion o).thumbOnDisk = false) := by
  refine ⟨rfl, fun h => ?_⟩
  have := h ⟨ThumbCreation.created 0, true⟩
  rw [show (runConversion ⟨ThumbCreation.created 0, true⟩).thumbOnDisk = true from rfl] at this
  exact Bool.noConfusion this

/-- C2 amended: every run that reaches the encode phase — thumbnail created
non-empty, verification passed — deletes the temporary thumbnail exactly once
on both the success and the failure path of the encode; a run aborting
earlier (thumbnail creation or verification failure) performs no deletion and
can leave the file on disk. -/
theorem c2_cleanup_characterization (o : RunOracle) (size : ℕ)
    (hc : o.thumb = ThumbCreation.created size) (hs : size ≠ 0) :
    (runConversion o).thumbOnDisk = false ∧
    (runConversion o).exitOk = o.encodeSucceeds := by
  unfold runConversion
  rw [hc]
  dsimp only
  rw [if_neg hs]
  exact ⟨rfl, rfl⟩

/-- Witness for `c2_cleanup_characterization`: a failing encode with a valid
10-byte thumbnail still ends with the thumbnail deleted. -/
theorem c2_witness :
    (runConversion ⟨ThumbCreation.created 10, false⟩).thumbOnDisk = false ∧
    (runConversion ⟨ThumbCreation.created 10, false⟩).exitOk =
      (⟨ThumbCreation.created 10, false⟩ : RunOracle).encodeSucceeds :=
  c2_cleanup_characterization ⟨ThumbCreation.created 10, false⟩ 10 rfl (by norm_num)

/- ### Run lifecycle: encode failure handling (src/convert_av1.ts, `main`
lines 367-384 and `encodeWithProgress` lines 166-218)

```
try {
    await encodeWithProgress(ffArgs, totalDurationSeconds);
    ... success reporting ...
} catch (err) {
    process.stderr.write("... An error occurred during conversion." + EOL);
    process.stderr.write((err?.message ?? String(err)) + EOL);
    process.exitCode = 1;
} finally { ... rm(tempThumb) ... }
```

`encodeWithProgress` is invoked exactly once; the catch only reports and
sets the exit code.  Nothing inspects the failure text and nothing spawns a
second encode.  The sequence of would-be encode attempts is modelled as an
oracle so the number of attempts the code consumes is observable. -/

/-- Result of one (potential) encode attempt: success flag and, on failure,
the diagnostic tail of the combined output. -/
structure EncodeOutcome where
  ok : Bool
  failureText : String

/-- Modelled from the spec: the spec's "signatures consistent with a
muxing/header-write problem" predicate on the failure text.  The source
contains no such predicate; representative engine messages stand in for the
signature set. -/
def specMuxSignature (t : String) : Bool :=
  hasSubstrChars ("Could not write header").data t.data ||
  hasSubstrChars ("muxer does not support").data t.data ||
  hasSubstrChars ("moov atom").data t.data

/-- Replay of `main`'s encode phase: `attemptResults n` is the outcome the
engine would produce for attempt number `n`.  Returns the number of attempts
actually launched and whether the phase succeeded. -/
def runEncodePhase (attemptResults : ℕ → EncodeOutcome) : ℕ × Bool :=
  ((1 : ℕ), (attemptResults 0).ok)

/-- C3 (as stated in the claim, refuted): even when the first encode fails
with text matching a muxing/header-write signature, the code launches exactly
one encode attempt — there is no no-thumbnail retry. -/
theorem c3_counterexample :
    specMuxSignature ("Could not write header for output file #0") = true ∧
    (runEncodePhase (fun _ =>
        ⟨false, ("Could not write header for output file #0")⟩)).1 = 1 ∧
    (runEncodePhase (fun _ =>
        ⟨false, ("Could not write header for output file #0")⟩)).1 ≠ 2 := by
  exact ⟨by decide, rfl, by decide⟩

/-- C3 amended: the orchestrator launches exactly one encode attempt per run,
and the phase succeeds exactly when that single attempt does; a non-zero exit
fails the job permanently regardless of its failure text. -/
theorem c3_no_retry (attemptResults : ℕ → EncodeOutcome) :
    (runEncodePhase attemptResults).1 = 1 ∧
    (runEncodePhase attemptResults).2 = (attemptResults 0).ok :=
  ⟨rfl, rfl⟩
